import Mathlib

set_option maxRecDepth 2000
set_option linter.unreachableTactic false
set_option linter.unusedTactic false

/-!
Verification development for the coordinates_suite engine (src/app.rs).

Floating-point values (f32/f64 in the source) are modelled as exact
rationals; the properties proved below are structural and
order-theoretic, where exact rationals and rounded floats agree on the
inputs exercised.  The external utm crate
projection routines are not part of the repository; they are taken as
explicit function parameters, and the zone-number derivation is
modelled from the spec.
-/

inductive ConversionMode
  | UTMtoLatLon
  | LatLontoUTM
deriving DecidableEq

inductive Hemisphere
  | North
  | South
deriving DecidableEq

inductive ConversionError
  | mk
deriving DecidableEq

/-- Mirrors DEFAULT_LAT in app.rs. -/
def DEFAULT_LAT : ℚ := 41.651285

/-- Mirrors DEFAULT_LON in app.rs. -/
def DEFAULT_LON : ℚ := -0.869147

/-- Mirrors TILE_WIDTHS in app.rs: the fixed descending 21-entry table of
angular tile widths for web-map zoom levels 0 to 20. -/
def TILE_WIDTHS : List ℚ :=
  [360, 180, 90, 45, 22.5, 11.25, 5.625, 2.813, 1.406, 0.703, 0.352, 0.176,
   0.088, 0.044, 0.022, 0.011, 0.005, 0.003, 0.001, 0.0005, 0.00025]

/-- The exact value of f32::MAX, used as the fold seed in
calculate_zoom_level. -/
def F32_MAX : ℚ := (2 ^ 24 - 1) * 2 ^ 104

/-!
Numeric-pair extractor (parse_number_pairs in app.rs).  The regex
r"([+-]?\d+([.,]\d+)?([eE][+-]?\d+)?)" scanned with find_iter is
embedded as a left-to-right maximal-munch scanner over the character
list: at each position, try to match an optional sign, one or more
digits, an optional fractional part introduced by a dot or comma with
at least one digit, and an optional exponent part; on failure advance
one character.
-/

/-- Splits a leading run of decimal digits from the rest. -/
def takeDigits : List Char → List Char × List Char
  | [] => ([], [])
  | c :: cs =>
    if c.isDigit then
      match takeDigits cs with
      | (ds, rest) => (c :: ds, rest)
    else ([], c :: cs)

/-- Matches the optional fractional part ([.,]\d+)? of the number regex,
returning the consumed characters and the rest. -/
def matchFrac : List Char → List Char × List Char
  | [] => ([], [])
  | c :: cs =>
    if c = '.' ∨ c = ',' then
      match takeDigits cs with
      | ([], _) => ([], c :: cs)
      | (ds, rest) => (c :: ds, rest)
    else ([], c :: cs)

/-- Matches the optional exponent part ([eE][+-]?\d+)? of the number
regex, returning the consumed characters and the rest. -/
def matchExp : List Char → List Char × List Char
  | [] => ([], [])
  | c :: cs =>
    if c = 'e' ∨ c = 'E' then
      match cs with
      | s :: cs2 =>
        if s = '+' ∨ s = '-' then
          match takeDigits cs2 with
          | ([], _) => ([], c :: cs)
          | (ds, rest) => (c :: s :: ds, rest)
        else
          match takeDigits cs with
          | ([], _) => ([], c :: cs)
          | (ds, rest) => (c :: ds, rest)
      | [] => ([], [c])
    else ([], c :: cs)

/-- Attempts to match one numeric token at the head of the input,
returning the token and the remaining characters. -/
def matchNumAt (cs : List Char) : Option (List Char × List Char) :=
  match (match cs with
         | c :: rest => if c = '+' ∨ c = '-' then ([c], rest) else ([], cs)
         | [] => ([], [])) with
  | (sgn, cs1) =>
    match takeDigits cs1 with
    | ([], _) => none
    | (ds, cs2) =>
      match matchFrac cs2 with
      | (fr, cs3) =>
        match matchExp cs3 with
        | (ex, cs4) => some (sgn ++ ds ++ fr ++ ex, cs4)

/-- Fuel-indexed scanner; fuel bounded by the input length suffices since
every step consumes at least one character. -/
def scanNumsAux : Nat → List Char → List (List Char)
  | 0, _ => []
  | _ + 1, [] => []
  | fuel + 1, c :: cs =>
    match matchNumAt (c :: cs) with
    | some (tok, rest) => tok :: scanNumsAux fuel rest
    | none => scanNumsAux fuel cs

/-- All numeric tokens of the input, left to right, non-overlapping. -/
def scanNums (cs : List Char) : List (List Char) := scanNumsAux cs.length cs

/-- Numeric value of a digit run. -/
def digitsToNat (ds : List Char) : Nat :=
  ds.foldl (fun n c => 10 * n + (c.toNat - 48)) 0

/-- Parses one extracted token to a rational, after normalizing the comma
decimal separator to a dot, mirroring m.as_str().replace above parse.
The floating-point parse of the source is modelled exactly over the
token grammar the scanner produces. -/
def parseTok (tok0 : List Char) : Option ℚ :=
  match tok0.map (fun c => if c = ',' then '.' else c) with
  | tok =>
    match (match tok with
           | '+' :: r => ((1 : ℚ), r)
           | '-' :: r => ((-1 : ℚ), r)
           | _ => ((1 : ℚ), tok)) with
    | (sgn, t1) =>
      match takeDigits t1 with
      | ([], _) => none
      | (ids, t2) =>
        match (match t2 with
               | '.' :: r =>
                 match takeDigits r with
                 | ([], _) => (([] : List Char), t2)
                 | (ds, rest) => (ds, rest)
               | _ => (([] : List Char), t2)) with
        | (fds, t3) =>
          match (match t3 with
                 | c :: r =>
                   if c = 'e' ∨ c = 'E' then
                     match r with
                     | s :: r2 =>
                       if s = '-' then
                         match takeDigits r2 with
                         | ([], _) => ((1 : Int), ([] : List Char), t3)
                         | (ds, rest) => ((-1 : Int), ds, rest)
                       else if s = '+' then
                         match takeDigits r2 with
                         | ([], _) => ((1 : Int), ([] : List Char), t3)
                         | (ds, rest) => ((1 : Int), ds, rest)
                       else
                         match takeDigits r with
                         | ([], _) => ((1 : Int), ([] : List Char), t3)
                         | (ds, rest) => ((1 : Int), ds, rest)
                     | [] => ((1 : Int), ([] : List Char), t3)
                   else ((1 : Int), ([] : List Char), t3)
                 | [] => ((1 : Int), ([] : List Char), t3)) with
          | (esgn, eds, t4) =>
            if t4 = [] then
              some (sgn * ((digitsToNat ids : ℚ) +
                  (digitsToNat fds : ℚ) / (10 : ℚ) ^ fds.length) *
                (10 : ℚ) ^ (esgn * (digitsToNat eds : Int)))
            else none

/-- The numbers vector of parse_number_pairs: scan tokens, normalize and
parse each, silently dropping tokens that fail to parse (filter_map). -/
def extractNumbers (input : String) : List ℚ :=
  (scanNums input.toList).filterMap parseTok

/-- Mirrors chunks_exact(2) followed by pairing: groups a list two at a
time, dropping a trailing unpaired element. -/
def chunksExact2 {α : Type} : List α → List (α × α)
  | a :: b :: rest => (a, b) :: chunksExact2 rest
  | _ => []

/-- Mirrors parse_number_pairs in app.rs. -/
def parse_number_pairs (input : String) : List (ℚ × ℚ) :=
  chunksExact2 (extractNumbers input)

/-!
Session state (struct CoordinatesSuite in app.rs).  The map widget
state touched by the engine (center_at, set_zoom) is modelled by the
map_center and map_zoom fields; map_center is an Option so that a
session in which the map was never re-centered is distinguishable.
-/

structure CoordinatesSuite where
  conversion_mode : ConversionMode
  coords_geo : List (ℚ × ℚ)
  coords_utm : List (ℚ × ℚ)
  utm_zone : Nat
  hemisphere : Hemisphere
  map_center : Option (ℚ × ℚ)
  map_zoom : ℚ
deriving DecidableEq

/-- A session state holding the given geographic pairs and the default
values of CoordinatesSuite::new for everything else. -/
def mkGeo (l : List (ℚ × ℚ)) : CoordinatesSuite :=
  { conversion_mode := ConversionMode.LatLontoUTM
    coords_geo := l
    coords_utm := []
    utm_zone := 30
    hemisphere := Hemisphere.North
    map_center := none
    map_zoom := 0 }

/-- The initial session state of CoordinatesSuite::new before the first
parse. -/
def initState : CoordinatesSuite := mkGeo []

/-- The zone letter passed to the inverse projection, as picked in
compute_geo_coords: North maps to N and South to J (any letter south of
the N boundary encodes the southern hemisphere for the utm crate). -/
def zone_letter : Hemisphere → Char
  | Hemisphere.North => 'N'
  | Hemisphere.South => 'J'

/-- The type of the inverse projection wsg84_utm_to_lat_lon of the
external utm crate: easting, northing, zone number and zone letter to a
latitude-longitude pair, or a failure outside its valid domain.  The
crate is not part of the repository, so the projection is a parameter
of the conversion operations. -/
abbrev InvProj : Type := ℚ → ℚ → Nat → Char → Except ConversionError (ℚ × ℚ)

/-- The type of the forward projection to_utm_wgs84_no_zone of the
external utm crate: latitude and longitude to a triple of northing,
easting and meridian convergence. -/
abbrev FwdProj : Type := ℚ → ℚ → ℚ × ℚ × ℚ

/-- Mirrors collect over Result in Rust: the first error aborts the
whole collection. -/
def collectResults {α : Type} : List (Except ConversionError α) →
    Except ConversionError (List α)
  | [] => Except.ok []
  | Except.error e :: _ => Except.error e
  | Except.ok x :: rest =>
    match collectResults rest with
    | Except.ok xs => Except.ok (x :: xs)
    | Except.error e => Except.error e

/-- Mirrors compute_geo_coords in app.rs: fails on an empty projected
set, otherwise applies the inverse projection to every pair (collecting
all-or-nothing) and stores the results as geographic pairs in
longitude-latitude order.  The state is only written on success. -/
def compute_geo_coords (proj : InvProj) (s : CoordinatesSuite) :
    Except ConversionError CoordinatesSuite :=
  if s.coords_utm = [] then Except.error ConversionError.mk
  else
    match collectResults (s.coords_utm.map fun p =>
        match proj p.1 p.2 s.utm_zone (zone_letter s.hemisphere) with
        | Except.ok (lat, lon) => Except.ok ((lon, lat) : ℚ × ℚ)
        | Except.error e => Except.error e) with
    | Except.ok geo => Except.ok { s with coords_geo := geo }
    | Except.error e => Except.error e

/-- The caller-visible effect of compute_geo_coords: Rust mutates self
only on the Ok path, so an error leaves the state as it was. -/
def run_compute_geo (proj : InvProj) (s : CoordinatesSuite) : CoordinatesSuite :=
  match compute_geo_coords proj s with
  | Except.ok s2 => s2
  | Except.error _ => s

/-- Modelled from the spec: standard UTM zoning as computed by
lat_lon_to_zone_number of the external utm crate (source not in this
repository), including the Norway and Svalbard exceptions; longitude
2 degrees east falls in zone 31. -/
def lat_lon_to_zone_number (lat lon : ℚ) : Nat :=
  if 56 ≤ lat ∧ lat < 64 ∧ 3 ≤ lon ∧ lon < 12 then 32
  else if 72 ≤ lat ∧ lat ≤ 84 ∧ 0 ≤ lon ∧ lon < 9 then 31
  else if 72 ≤ lat ∧ lat ≤ 84 ∧ 9 ≤ lon ∧ lon < 21 then 33
  else if 72 ≤ lat ∧ lat ≤ 84 ∧ 21 ≤ lon ∧ lon < 33 then 35
  else if 72 ≤ lat ∧ lat ≤ 84 ∧ 33 ≤ lon ∧ lon < 42 then 37
  else Int.toNat ⌊(lon + 180) / 6⌋ % 60 + 1

/-- Mirrors compute_utm_coords in app.rs: fails on an empty geographic
set, otherwise derives the zone number and hemisphere from the first
point only (stored pairs are longitude-latitude, so the latitude is the
second component), then maps the forward projection over every point,
swapping the returned northing-easting into easting-northing order. -/
def compute_utm_coords (fwd : FwdProj) (s : CoordinatesSuite) :
    Except ConversionError CoordinatesSuite :=
  match s.coords_geo with
  | [] => Except.error ConversionError.mk
  | (lon, lat) :: _ =>
    Except.ok { s with
      utm_zone := lat_lon_to_zone_number lat lon
      hemisphere := if 0 ≤ lat then Hemisphere.North else Hemisphere.South
      coords_utm := s.coords_geo.map fun p =>
        match fwd p.2 p.1 with
        | (y, x, _mc) => ((x, y) : ℚ × ℚ) }

/-- Mirrors parse_coordinates in app.rs, with the clipboard text passed
in as the input (the clipboard itself is an external collaborator).  An
empty extraction leaves the session unchanged; otherwise the mode is
classified from the second component of the first pair, the source-of-
truth representation is overwritten, and the dependent representation
is recomputed, keeping the partially updated state when the conversion
fails. -/
def parse_coordinates (proj : InvProj) (fwd : FwdProj)
    (s : CoordinatesSuite) (clipboard : String) : CoordinatesSuite :=
  match parse_number_pairs clipboard with
  | [] => s
  | c0 :: rest =>
    if 1000 < c0.2 then
      let s1 := { s with conversion_mode := ConversionMode.UTMtoLatLon
                         coords_utm := c0 :: rest }
      match compute_geo_coords proj s1 with
      | Except.ok s2 => s2
      | Except.error _ => s1
    else
      let s1 := { s with conversion_mode := ConversionMode.LatLontoUTM
                         coords_geo := (c0 :: rest).map fun p => (p.2, p.1) }
      match compute_utm_coords fwd s1 with
      | Except.ok s2 => s2
      | Except.error _ => s1

/-- First index of the list satisfying the predicate, mirroring
iterator enumerate-find in calculate_zoom_level. -/
def findFirstIdx (p : ℚ → Bool) : List ℚ → Option Nat
  | [] => none
  | x :: xs => if p x then some 0 else (findFirstIdx p xs).map (· + 1)

/-- The bounding-box fold of calculate_zoom_level: running minimum and
maximum of latitudes and longitudes, seeded with f32 MAX and MIN.
Components are min_lat, max_lat, min_lon, max_lon. -/
def boundsFold (coords : List (ℚ × ℚ)) : ℚ × ℚ × ℚ × ℚ :=
  coords.foldl
    (fun acc p =>
      match acc with
      | (mnla, mxla, mnlo, mxlo) =>
        (min mnla p.2, max mxla p.2, min mnlo p.1, max mxlo p.1))
    (F32_MAX, -F32_MAX, F32_MAX, -F32_MAX)

/-- The padded range of calculate_zoom_level: 1.3 times the larger of
the latitude and longitude spans. -/
def paddedRange (coords : List (ℚ × ℚ)) : ℚ :=
  match boundsFold coords with
  | (mnla, mxla, mnlo, mxlo) => (13 / 10) * max (mxla - mnla) (mxlo - mnlo)

/-- Mirrors calculate_zoom_level in app.rs: a single point zooms to the
fixed level 15; otherwise the result is the first tile-width index
strictly exceeded by the padded range, defaulting to 0 when there is
none. -/
def calculate_zoom_level (s : CoordinatesSuite) : ℚ :=
  if s.coords_geo.length = 1 then 15
  else
    ((findFirstIdx (fun tw => 0 < paddedRange s.coords_geo - tw)
        TILE_WIDTHS).getD 0 : ℕ)

/-- The claimed zoom rule, worded as in the spec: the smallest index
whose tile width strictly exceeds the range, defaulting to 0.  Stated
only to be compared against calculate_zoom_level. -/
def zoom_level_spec (range : ℚ) : Nat :=
  (findFirstIdx (fun tw => range < tw) TILE_WIDTHS).getD 0

/-- Mirrors move_map_to_points in app.rs: an empty geographic set
returns early leaving the whole state unchanged; otherwise the map is
centered at the arithmetic mean of the longitudes and latitudes and the
zoom level is recomputed.  The default-location branch of the source is
kept verbatim even though its guard is always true here. -/
def move_map_to_points (s : CoordinatesSuite) : CoordinatesSuite :=
  if s.coords_geo = [] then s
  else
    let n : ℚ := (s.coords_geo.length : ℚ)
    let c : ℚ × ℚ :=
      if 0 < n then
        (((s.coords_geo.map Prod.fst).foldl (· + ·) 0) / n,
         ((s.coords_geo.map Prod.snd).foldl (· + ·) 0) / n)
      else (DEFAULT_LAT, DEFAULT_LON)
    { s with map_center := some c
             map_zoom := calculate_zoom_level s }

/-- One data line of the UTM delimited export: easting, tab, northing,
newline. -/
def csvLineUtm (render : ℚ → String) (p : ℚ × ℚ) : String :=
  render p.1 ++ "\t" ++ render p.2 ++ "\n"

/-- One data line of the geographic delimited export: latitude, tab,
longitude, newline (stored pairs are longitude-latitude). -/
def csvLineGeo (render : ℚ → String) (p : ℚ × ℚ) : String :=
  render p.2 ++ "\t" ++ render p.1 ++ "\n"

/-- Mirrors export_csv_utm in app.rs: the bytes written to the file,
one writeln for the header then one writeln per projected pair.  The
rendering of a float with the default Display format is external, so it
is a parameter. -/
def export_csv_utm (render : ℚ → String) (coords_utm : List (ℚ × ℚ)) : String :=
  coords_utm.foldl (fun acc p => acc ++ csvLineUtm render p) "Easting\tNorthing\n"

/-- Mirrors export_csv_latlon in app.rs: header line then one line per
geographic pair, latitude first. -/
def export_csv_latlon (render : ℚ → String) (coords_geo : List (ℚ × ℚ)) : String :=
  coords_geo.foldl (fun acc p => acc ++ csvLineGeo render p) "Latitude\tLongitude\n"

/-- An inverse projection that fails everywhere; a concrete instance
used to exhibit failure behavior. -/
def projNone : InvProj := fun _ _ _ _ => Except.error ConversionError.mk

/-- An inverse projection that succeeds everywhere, echoing the inputs;
a concrete instance used to exhibit success behavior. -/
def projEcho : InvProj := fun x y _ _ => Except.ok (y, x)

/-- A forward projection constant at zero; a concrete instance. -/
def fwdZero : FwdProj := fun _ _ => (0, 0, 0)

/-- The corrected zoom-level characterization: either the zoom level is
the first (hence smallest) tile-width index strictly exceeded by the
padded range, or no index qualifies and the zoom level defaults to 0
with the range at most every table entry. -/
def ZoomCharacterization (s : CoordinatesSuite) : Prop :=
  (∃ i, findFirstIdx (fun tw => decide (0 < paddedRange s.coords_geo - tw))
      TILE_WIDTHS = some i
    ∧ calculate_zoom_level s = (i : ℚ)
    ∧ i < TILE_WIDTHS.length
    ∧ TILE_WIDTHS.getD i 0 < paddedRange s.coords_geo
    ∧ ∀ j, j < i → paddedRange s.coords_geo ≤ TILE_WIDTHS.getD j 0)
  ∨ (calculate_zoom_level s = 0
    ∧ ∀ j, j < TILE_WIDTHS.length → paddedRange s.coords_geo ≤ TILE_WIDTHS.getD j 0)

/-!
Lemmas about the pairing step.
-/

theorem chunksExact2_length {α : Type} :
    ∀ l : List α, (chunksExact2 l).length = l.length / 2
  | [] => by simp [chunksExact2]
  | [_] => by simp [chunksExact2]
  | a :: b :: rest => by
    simp [chunksExact2, chunksExact2_length rest]
    omega

theorem chunksExact2_getElem {α : Type} :
    ∀ (l : List α) (j : Nat) (a b : α),
      l[2 * j]? = some a → l[2 * j + 1]? = some b →
      (chunksExact2 l)[j]? = some (a, b)
  | [], j, a, b => by simp
  | [x], j, a, b => by
    intro _ h2
    have := List.getElem?_eq_some_iff.mp h2
    simp at this
  | x :: y :: rest, 0, a, b => by
    intro h1 h2
    simp at h1 h2
    simp [chunksExact2, h1, h2]
  | x :: y :: rest, j + 1, a, b => by
    intro h1 h2
    have e : 2 * (j + 1) = 2 * j + 1 + 1 := by ring
    rw [e, List.getElem?_cons_succ, List.getElem?_cons_succ] at h1
    rw [e, List.getElem?_cons_succ, List.getElem?_cons_succ] at h2
    simpa [chunksExact2] using chunksExact2_getElem rest j a b h1 h2

theorem chunksExact2_dropLast {α : Type} :
    ∀ l : List α, l.length % 2 = 1 → chunksExact2 l = chunksExact2 l.dropLast
  | [], h => by simp at h
  | [x], _ => by simp [chunksExact2]
  | x :: y :: rest, h => by
    have hr : rest.length % 2 = 1 := by
      simp only [List.length_cons] at h
      omega
    have hne : rest ≠ [] := by
      intro e
      rw [e] at hr
      simp at hr
    obtain ⟨z, zs, rfl⟩ : ∃ z zs, rest = z :: zs := by
      rcases rest with _ | ⟨z, zs⟩
      · exact absurd rfl hne
      · exact ⟨z, zs, rfl⟩
    simpa [chunksExact2] using chunksExact2_dropLast (z :: zs) hr

/-- Claim C7: the extractor consumes numeric tokens left to right,
grouping them two at a time into pairs (the j-th pair is made of tokens
2j and 2j+1), silently skipping tokens that fail to parse (numbers is
the filter of parsed tokens) and dropping exactly the trailing unpaired
token when the token count is odd; the text "1 2 3" extracts to the
single pair (1, 2). -/
theorem extractor_pairing (input : String) :
    (parse_number_pairs input).length = (extractNumbers input).length / 2
    ∧ (∀ j a b, (extractNumbers input)[2 * j]? = some a →
        (extractNumbers input)[2 * j + 1]? = some b →
        (parse_number_pairs input)[j]? = some (a, b))
    ∧ ((extractNumbers input).length % 2 = 1 →
        parse_number_pairs input = chunksExact2 (extractNumbers input).dropLast)
    ∧ parse_number_pairs "1 2 3" = [(1, 2)] := by
  refine ⟨chunksExact2_length _, ?_, ?_, ?_⟩
  · intro j a b h1 h2
    exact chunksExact2_getElem _ j a b h1 h2
  · intro hodd
    exact chunksExact2_dropLast _ hodd
  · simp +decide [parse_number_pairs, extractNumbers, scanNums, scanNumsAux, matchNumAt,
      matchFrac, matchExp, takeDigits, parseTok, digitsToNat, List.filterMap, chunksExact2]

theorem extractor_pairing_witness :
    (parse_number_pairs "1 2 3")[0]? = some (1, 2)
    ∧ parse_number_pairs "1 2 3" = chunksExact2 (extractNumbers "1 2 3").dropLast := by
  have h : extractNumbers "1 2 3" = [1, 2, 3] := by
    simp +decide [extractNumbers, scanNums, scanNumsAux, matchNumAt,
      matchFrac, matchExp, takeDigits, parseTok, digitsToNat, List.filterMap]
  constructor
  · refine (extractor_pairing "1 2 3").2.1 0 1 2 ?_ ?_ <;> rw [h] <;> simp
  · refine (extractor_pairing "1 2 3").2.2.1 ?_
    rw [h]
    simp

/-!
Field-preservation lemmas for the two conversion operations.
-/

theorem compute_geo_fields (proj : InvProj) (s s2 : CoordinatesSuite)
    (h : compute_geo_coords proj s = Except.ok s2) :
    s2.conversion_mode = s.conversion_mode ∧ s2.coords_utm = s.coords_utm
    ∧ s2.utm_zone = s.utm_zone ∧ s2.hemisphere = s.hemisphere
    ∧ s2.map_center = s.map_center ∧ s2.map_zoom = s.map_zoom := by
  unfold compute_geo_coords at h
  by_cases he : s.coords_utm = []
  · rw [if_pos he] at h
    exact absurd h (by simp)
  · rw [if_neg he] at h
    rcases hc : collectResults (s.coords_utm.map fun p =>
        match proj p.1 p.2 s.utm_zone (zone_letter s.hemisphere) with
        | Except.ok (lat, lon) => Except.ok ((lon, lat) : ℚ × ℚ)
        | Except.error e => Except.error e) with e | geo
    · rw [hc] at h
      exact absurd h (by simp)
    · rw [hc] at h
      cases h
      exact ⟨rfl, rfl, rfl, rfl, rfl, rfl⟩

theorem compute_utm_fields (fwd : FwdProj) (s s2 : CoordinatesSuite)
    (h : compute_utm_coords fwd s = Except.ok s2) :
    s2.conversion_mode = s.conversion_mode ∧ s2.coords_geo = s.coords_geo
    ∧ s2.map_center = s.map_center ∧ s2.map_zoom = s.map_zoom := by
  unfold compute_utm_coords at h
  rcases hg : s.coords_geo with _ | ⟨⟨lon, lat⟩, tl⟩
  · rw [hg] at h
    exact absurd h (by simp)
  · rw [hg] at h
    cases h
    exact ⟨rfl, rfl, rfl, rfl⟩

/-- Claim C1, amended: classification of a non-empty extracted pair
list inspects the second component of the first pair with a signed
strict comparison against 1000 (no absolute value is taken): if it
exceeds 1000 the session mode becomes UTMtoLatLon, otherwise
LatLontoUTM; in particular 1000.01 classifies as UTM-sourced, and
999.99 and exactly 1000.0 classify as geographic-sourced. -/
theorem classifier_signed_threshold (proj : InvProj) (fwd : FwdProj)
    (s : CoordinatesSuite) (input : String) (a b : ℚ) (rest : List (ℚ × ℚ))
    (h : parse_number_pairs input = (a, b) :: rest) :
    (1000 < b →
      (parse_coordinates proj fwd s input).conversion_mode = ConversionMode.UTMtoLatLon)
    ∧ (b ≤ 1000 →
      (parse_coordinates proj fwd s input).conversion_mode = ConversionMode.LatLontoUTM) := by
  simp only [parse_coordinates, h]
  constructor
  · intro hb
    rw [if_pos (show (1000 : ℚ) < ((a, b) : ℚ × ℚ).2 from hb)]
    rcases hc : compute_geo_coords proj
        { s with conversion_mode := ConversionMode.UTMtoLatLon
                 coords_utm := (a, b) :: rest } with e | s2
    · simp [hc]
    · simp only [hc]
      exact (compute_geo_fields _ _ _ hc).1
  · intro hb
    rw [if_neg (show ¬ (1000 : ℚ) < ((a, b) : ℚ × ℚ).2 from not_lt.mpr hb)]
    rcases hc : compute_utm_coords fwd
        { s with conversion_mode := ConversionMode.LatLontoUTM
                 coords_geo := ((a, b) :: rest).map fun p => (p.2, p.1) } with e | s2
    · simp [hc]
    · simp only [hc]
      exact (compute_utm_fields _ _ _ hc).1

theorem classifier_signed_threshold_witness :
    (parse_coordinates projNone fwdZero initState "7 1000.01").conversion_mode
      = ConversionMode.UTMtoLatLon
    ∧ (parse_coordinates projNone fwdZero initState "7 999.99").conversion_mode
      = ConversionMode.LatLontoUTM
    ∧ (parse_coordinates projNone fwdZero initState "7 1000.0").conversion_mode
      = ConversionMode.LatLontoUTM := by
  have h1 : parse_number_pairs "7 1000.01" = [(7, 1000.01)] := by
    simp +decide [parse_number_pairs, extractNumbers, scanNums, scanNumsAux, matchNumAt,
      matchFrac, matchExp, takeDigits, parseTok, digitsToNat, List.filterMap, chunksExact2]
    all_goals norm_num
  have h2 : parse_number_pairs "7 999.99" = [(7, 999.99)] := by
    simp +decide [parse_number_pairs, extractNumbers, scanNums, scanNumsAux, matchNumAt,
      matchFrac, matchExp, takeDigits, parseTok, digitsToNat, List.filterMap, chunksExact2]
    all_goals norm_num
  have h3 : parse_number_pairs "7 1000.0" = [(7, 1000)] := by
    simp +decide [parse_number_pairs, extractNumbers, scanNums, scanNumsAux, matchNumAt,
      matchFrac, matchExp, takeDigits, parseTok, digitsToNat, List.filterMap, chunksExact2]
    all_goals norm_num
  refine ⟨?_, ?_, ?_⟩
  · exact (classifier_signed_threshold projNone fwdZero initState "7 1000.01"
      7 1000.01 [] h1).1 (by norm_num)
  · exact (classifier_signed_threshold projNone fwdZero initState "7 999.99"
      7 999.99 [] h2).2 (by norm_num)
  · exact (classifier_signed_threshold projNone fwdZero initState "7 1000.0"
      7 1000 [] h3).2 (by norm_num)

/-- Claim C1 counterexample: the claim says a first pair whose second
element has absolute value exceeding 1000 classifies as UTM-sourced,
but the code compares the signed value, so -1000.01 (absolute value
1000.01 > 1000) classifies as geographic-sourced. -/
theorem classifier_no_abs_counterexample :
    1000 < |(-1000.01 : ℚ)|
    ∧ (parse_coordinates projNone fwdZero initState "7 -1000.01").conversion_mode
      = ConversionMode.LatLontoUTM
    ∧ ConversionMode.LatLontoUTM ≠ ConversionMode.UTMtoLatLon := by
  refine ⟨by rw [abs_of_nonpos (by norm_num)]; norm_num, ?_, by decide⟩
  simp +decide [parse_coordinates, parse_number_pairs, extractNumbers, scanNums, scanNumsAux,
    matchNumAt, matchFrac, matchExp, takeDigits, parseTok, digitsToNat, List.filterMap,
    chunksExact2, compute_utm_coords, lat_lon_to_zone_number, projNone, fwdZero, initState, mkGeo]
  all_goals norm_num

/-!
Lemmas about all-or-nothing collection.
-/

theorem collectResults_error_of_mem {α : Type} :
    ∀ l : List (Except ConversionError α),
      Except.error ConversionError.mk ∈ l →
      collectResults l = Except.error ConversionError.mk
  | [], h => by simp at h
  | Except.error e :: rest, _ => by
    cases e
    rfl
  | Except.ok x :: rest, h => by
    have hr : Except.error ConversionError.mk ∈ rest := by
      rcases List.mem_cons.mp h with h1 | h1
      · exact absurd h1 (by simp)
      · exact h1
    simp only [collectResults, collectResults_error_of_mem rest hr]

theorem collectResults_ok_map {α : Type} :
    ∀ (l : List (Except ConversionError α)) (ys : List α),
      collectResults l = Except.ok ys → l = ys.map Except.ok
  | [], ys => by
    intro h
    simp only [collectResults] at h
    cases h
    rfl
  | Except.error e :: rest, ys => by
    intro h
    simp [collectResults] at h
  | Except.ok x :: rest, ys => by
    intro h
    simp only [collectResults] at h
    rcases hc : collectResults rest with e | xs
    · rw [hc] at h
      simp at h
    · rw [hc] at h
      cases h
      rw [collectResults_ok_map rest xs hc]
      rfl

/-- Claim C4: UTM-to-geographic conversion is all-or-nothing: it fails
with ConversionError on an empty projected set, it fails whenever any
single projected pair is outside the valid domain of the inverse
projection, and on any failure the caller-visible state (in particular
the geographic representation) is left entirely unchanged. -/
theorem compute_geo_all_or_nothing (proj : InvProj) (s : CoordinatesSuite) :
    (s.coords_utm = [] →
      compute_geo_coords proj s = Except.error ConversionError.mk)
    ∧ (∀ p, p ∈ s.coords_utm →
        proj p.1 p.2 s.utm_zone (zone_letter s.hemisphere) = Except.error ConversionError.mk →
        compute_geo_coords proj s = Except.error ConversionError.mk)
    ∧ (∀ e, compute_geo_coords proj s = Except.error e → run_compute_geo proj s = s) := by
  refine ⟨?_, ?_, ?_⟩
  · intro he
    unfold compute_geo_coords
    rw [if_pos he]
  · intro p hp hproj
    unfold compute_geo_coords
    rw [if_neg (List.ne_nil_of_mem hp)]
    have hmem : Except.error ConversionError.mk ∈ s.coords_utm.map fun q =>
        match proj q.1 q.2 s.utm_zone (zone_letter s.hemisphere) with
        | Except.ok (lat, lon) => Except.ok ((lon, lat) : ℚ × ℚ)
        | Except.error e => Except.error e := by
      have := List.mem_map_of_mem (fun q =>
        match proj q.1 q.2 s.utm_zone (zone_letter s.hemisphere) with
        | Except.ok (lat, lon) => Except.ok ((lon, lat) : ℚ × ℚ)
        | Except.error e => Except.error e) hp
      simpa [hproj] using this
    rw [collectResults_error_of_mem _ hmem]
  · intro e he
    unfold run_compute_geo
    rw [he]

theorem compute_geo_all_or_nothing_witness :
    compute_geo_coords projNone { initState with coords_utm := [((1 : ℚ), (2 : ℚ))] }
      = Except.error ConversionError.mk
    ∧ run_compute_geo projNone { initState with coords_utm := [((1 : ℚ), (2 : ℚ))] }
      = { initState with coords_utm := [((1 : ℚ), (2 : ℚ))] }
    ∧ compute_geo_coords projNone initState = Except.error ConversionError.mk := by
  have h2 := (compute_geo_all_or_nothing projNone
    { initState with coords_utm := [((1 : ℚ), (2 : ℚ))] }).2.1 (1, 2) (by simp) rfl
  refine ⟨h2, ?_, ?_⟩
  · exact (compute_geo_all_or_nothing projNone _).2.2 ConversionError.mk h2
  · exact (compute_geo_all_or_nothing projNone initState).1 rfl

/-- Claim C5: geographic-to-UTM conversion derives the UTM zone number
and the hemisphere from the first point of the set only, with
hemisphere North exactly when that first latitude is at least 0 and
South otherwise, then maps the single forward projection over every
point of the set (stored pairs are longitude-latitude; projected pairs
are stored easting first). -/
theorem compute_utm_first_point (fwd : FwdProj) (s : CoordinatesSuite)
    (lon lat : ℚ) (rest : List (ℚ × ℚ)) (h : s.coords_geo = (lon, lat) :: rest) :
    ∃ s2, compute_utm_coords fwd s = Except.ok s2
      ∧ s2.utm_zone = lat_lon_to_zone_number lat lon
      ∧ (s2.hemisphere = Hemisphere.North ↔ 0 ≤ lat)
      ∧ (s2.hemisphere = Hemisphere.South ↔ lat < 0)
      ∧ s2.coords_utm = s.coords_geo.map fun p =>
          match fwd p.2 p.1 with
          | (y, x, _mc) => ((x, y) : ℚ × ℚ) := by
  unfold compute_utm_coords
  rw [h]
  refine ⟨_, rfl, rfl, ?_, ?_, rfl⟩
  · by_cases hl : 0 ≤ lat <;> simp [hl]
  · by_cases hl : 0 ≤ lat <;> simp [hl]
    exact lt_of_not_le hl

theorem compute_utm_first_point_witness :
    (∃ s2, compute_utm_coords fwdZero (mkGeo [((2 : ℚ), (45 : ℚ))]) = Except.ok s2
      ∧ s2.utm_zone = 31 ∧ s2.hemisphere = Hemisphere.North)
    ∧ (∃ s2, compute_utm_coords fwdZero (mkGeo [((2 : ℚ), (-20 : ℚ))]) = Except.ok s2
      ∧ s2.hemisphere = Hemisphere.South) := by
  constructor
  · obtain ⟨s2, he, hz, hn, _, _⟩ :=
      compute_utm_first_point fwdZero (mkGeo [(2, 45)]) 2 45 [] rfl
    refine ⟨s2, he, ?_, hn.mpr (by norm_num)⟩
    rw [hz]
    simp +decide [lat_lon_to_zone_number]
    all_goals norm_num
    all_goals decide
  · obtain ⟨s2, he, _, _, hs, _⟩ :=
      compute_utm_first_point fwdZero (mkGeo [(2, -20)]) 2 (-20) [] rfl
    exact ⟨s2, he, hs.mpr (by norm_num)⟩

/-- Claim C10: input pair ordering depends on the classification and
the two orderings differ: a geographic-sourced raw pair (a, b) is read
as a = latitude, b = longitude and stored component-swapped as the
internal geographic pair (longitude, latitude), while a UTM-sourced raw
pair is stored unswapped as (easting, northing). -/
theorem pair_ordering_by_mode (proj : InvProj) (fwd : FwdProj)
    (s : CoordinatesSuite) (input : String) (a b : ℚ) (rest : List (ℚ × ℚ))
    (h : parse_number_pairs input = (a, b) :: rest) :
    (b ≤ 1000 →
      (parse_coordinates proj fwd s input).coords_geo
        = ((a, b) :: rest).map fun p => (p.2, p.1))
    ∧ (1000 < b →
      (parse_coordinates proj fwd s input).coords_utm = (a, b) :: rest)
    ∧ ((fun p : ℚ × ℚ => (p.2, p.1)) (1, 2)) ≠ ((1 : ℚ), (2 : ℚ)) := by
  refine ⟨?_, ?_, by norm_num⟩
  · intro hb
    simp only [parse_coordinates, h]
    rw [if_neg (show ¬ (1000 : ℚ) < ((a, b) : ℚ × ℚ).2 from not_lt.mpr hb)]
    rcases hc : compute_utm_coords fwd
        { s with conversion_mode := ConversionMode.LatLontoUTM
                 coords_geo := ((a, b) :: rest).map fun p => (p.2, p.1) } with e | s2
    · simp [hc]
    · simp only [hc]
      exact (compute_utm_fields _ _ _ hc).2.1
  · intro hb
    simp only [parse_coordinates, h]
    rw [if_pos (show (1000 : ℚ) < ((a, b) : ℚ × ℚ).2 from hb)]
    rcases hc : compute_geo_coords proj
        { s with conversion_mode := ConversionMode.UTMtoLatLon
                 coords_utm := (a, b) :: rest } with e | s2
    · simp [hc]
    · simp only [hc]
      exact (compute_geo_fields _ _ _ hc).2.1

theorem pair_ordering_by_mode_witness :
    (parse_coordinates projNone fwdZero initState "1 2").coords_geo = [((2 : ℚ), (1 : ℚ))]
    ∧ (parse_coordinates projNone fwdZero initState "1 2000").coords_utm
      = [((1 : ℚ), (2000 : ℚ))] := by
  have h1 : parse_number_pairs "1 2" = [(1, 2)] := by
    simp +decide [parse_number_pairs, extractNumbers, scanNums, scanNumsAux, matchNumAt,
      matchFrac, matchExp, takeDigits, parseTok, digitsToNat, List.filterMap, chunksExact2]
  have h2 : parse_number_pairs "1 2000" = [(1, 2000)] := by
    simp +decide [parse_number_pairs, extractNumbers, scanNums, scanNumsAux, matchNumAt,
      matchFrac, matchExp, takeDigits, parseTok, digitsToNat, List.filterMap, chunksExact2]
    all_goals norm_num
  constructor
  · rw [(pair_ordering_by_mode projNone fwdZero initState "1 2" 1 2 [] h1).1 (by norm_num)]
    rfl
  · exact (pair_ordering_by_mode projNone fwdZero initState "1 2000" 1 2000 [] h2).2.1
      (by norm_num)

theorem compute_utm_cons (fwd : FwdProj) (s : CoordinatesSuite)
    (lon lat : ℚ) (rest : List (ℚ × ℚ)) (h : s.coords_geo = (lon, lat) :: rest) :
    compute_utm_coords fwd s = Except.ok
      { s with utm_zone := lat_lon_to_zone_number lat lon
               hemisphere := if 0 ≤ lat then Hemisphere.North else Hemisphere.South
               coords_utm := s.coords_geo.map fun p =>
                 match fwd p.2 p.1 with
                 | (y, x, _mc) => ((x, y) : ℚ × ℚ) } := by
  unfold compute_utm_coords
  rw [h]

theorem compute_geo_ok_spec (proj : InvProj) (s s2 : CoordinatesSuite)
    (h : compute_geo_coords proj s = Except.ok s2) :
    s2.coords_geo.length = s.coords_utm.length
    ∧ ∀ (i : Nat) (p : ℚ × ℚ), s.coords_utm[i]? = some p →
        ∃ la lo, proj p.1 p.2 s.utm_zone (zone_letter s.hemisphere) = Except.ok (la, lo)
          ∧ s2.coords_geo[i]? = some (lo, la) := by
  unfold compute_geo_coords at h
  by_cases he : s.coords_utm = []
  · rw [if_pos he] at h
    exact absurd h (by simp)
  · rw [if_neg he] at h
    rcases hc : collectResults (s.coords_utm.map fun p =>
        match proj p.1 p.2 s.utm_zone (zone_letter s.hemisphere) with
        | Except.ok (lat, lon) => Except.ok ((lon, lat) : ℚ × ℚ)
        | Except.error e => Except.error e) with e | geo
    · rw [hc] at h
      exact absurd h (by simp)
    · rw [hc] at h
      cases h
      have hmap := collectResults_ok_map _ _ hc
      constructor
      · have := congrArg List.length hmap
        simpa using this.symm
      · intro i p hp
        have hidx := congrArg (fun l => l[i]?) hmap
        simp only [List.getElem?_map, hp, Option.map_some'] at hidx
        rcases hg : geo[i]? with _ | g
        · rw [hg] at hidx
          simp at hidx
        · rw [hg] at hidx
          simp only [Option.map_some', Option.some.injEq] at hidx
          rcases hproj : proj p.1 p.2 s.utm_zone (zone_letter s.hemisphere) with e2 | q
          · rw [hproj] at hidx
            simp at hidx
          · rcases q with ⟨la, lo⟩
            rw [hproj] at hidx
            simp only [Except.ok.injEq] at hidx
            refine ⟨la, lo, rfl, ?_⟩
            rw [hidx]

/-- Claim C3, amended: after a re-parse classified geographic-sourced,
and after a UTM-sourced re-parse whose conversion succeeds, the two
representations are paired one-to-one (equal length, index-for-index
through the respective projection); but after a UTM-sourced re-parse
whose conversion fails the projected representation holds the newly
extracted pairs while the geographic representation keeps its previous
value, so the session is left partially updated and the representations
need not correspond. -/
theorem parse_coordinates_representations (proj : InvProj) (fwd : FwdProj)
    (s : CoordinatesSuite) (input : String) (a b : ℚ) (rest : List (ℚ × ℚ))
    (h : parse_number_pairs input = (a, b) :: rest) :
    (b ≤ 1000 →
      (parse_coordinates proj fwd s input).coords_geo
        = ((a, b) :: rest).map (fun p => (p.2, p.1))
      ∧ (parse_coordinates proj fwd s input).coords_utm
        = (parse_coordinates proj fwd s input).coords_geo.map (fun p =>
            match fwd p.2 p.1 with
            | (y, x, _mc) => ((x, y) : ℚ × ℚ))
      ∧ (parse_coordinates proj fwd s input).coords_geo.length
        = (parse_coordinates proj fwd s input).coords_utm.length)
    ∧ (1000 < b → ∀ s2, compute_geo_coords proj
        { s with conversion_mode := ConversionMode.UTMtoLatLon
                 coords_utm := (a, b) :: rest } = Except.ok s2 →
      parse_coordinates proj fwd s input = s2
      ∧ s2.coords_utm = (a, b) :: rest
      ∧ s2.coords_geo.length = s2.coords_utm.length
      ∧ (∀ (i : Nat) (p : ℚ × ℚ), s2.coords_utm[i]? = some p →
          ∃ la lo, proj p.1 p.2 s.utm_zone (zone_letter s.hemisphere) = Except.ok (la, lo)
            ∧ s2.coords_geo[i]? = some (lo, la)))
    ∧ (1000 < b → ∀ e, compute_geo_coords proj
        { s with conversion_mode := ConversionMode.UTMtoLatLon
                 coords_utm := (a, b) :: rest } = Except.error e →
      (parse_coordinates proj fwd s input).coords_utm = (a, b) :: rest
      ∧ (parse_coordinates proj fwd s input).coords_geo = s.coords_geo) := by
  refine ⟨?_, ?_, ?_⟩
  · intro hb
    simp only [parse_coordinates, h]
    rw [if_neg (show ¬ (1000 : ℚ) < ((a, b) : ℚ × ℚ).2 from not_lt.mpr hb)]
    rw [compute_utm_cons fwd
      { s with conversion_mode := ConversionMode.LatLontoUTM
               coords_geo := ((a, b) :: rest).map fun p => (p.2, p.1) }
      b a (rest.map fun p => (p.2, p.1)) (by simp)]
    refine ⟨rfl, rfl, ?_⟩
    simp
  · intro hb s2 hok
    simp only [parse_coordinates, h]
    rw [if_pos (show (1000 : ℚ) < ((a, b) : ℚ × ℚ).2 from hb)]
    rw [hok]
    have hutm := (compute_geo_fields _ _ _ hok).2.1
    have hspec := compute_geo_ok_spec _ _ _ hok
    refine ⟨rfl, hutm, ?_, ?_⟩
    · rw [hutm, hspec.1]
    · intro i p hp
      exact hspec.2 i p (by rwa [hutm] at hp)
  · intro hb e herr
    simp only [parse_coordinates, h]
    rw [if_pos (show (1000 : ℚ) < ((a, b) : ℚ × ℚ).2 from hb)]
    rw [herr]
    exact ⟨rfl, rfl⟩

theorem parse_coordinates_representations_witness :
    (parse_coordinates projNone fwdZero initState "5 6").coords_geo.length
      = (parse_coordinates projNone fwdZero initState "5 6").coords_utm.length
    ∧ (parse_coordinates projNone fwdZero initState "5 6").coords_geo = [(6, 5)] := by
  have h1 : parse_number_pairs "5 6" = [(5, 6)] := by
    simp +decide [parse_number_pairs, extractNumbers, scanNums, scanNumsAux, matchNumAt,
      matchFrac, matchExp, takeDigits, parseTok, digitsToNat, List.filterMap, chunksExact2]
  have hg := (parse_coordinates_representations projNone fwdZero initState "5 6"
    5 6 [] h1).1 (by norm_num)
  exact ⟨hg.2.2, by rw [hg.1]; rfl⟩

/-- Claim C3 counterexample: starting from a session whose geographic
set has one point, re-parsing UTM-classified text of two pairs with a
failing conversion leaves both representations populated with different
lengths, so the claimed invariant does not survive the operation and
the coordinate state is partially updated. -/
theorem parse_coordinates_invariant_broken :
    (parse_coordinates projNone fwdZero (mkGeo [((0 : ℚ), (0 : ℚ))])
        "1 2000 3 4000").coords_geo = [((0 : ℚ), (0 : ℚ))]
    ∧ (parse_coordinates projNone fwdZero (mkGeo [((0 : ℚ), (0 : ℚ))])
        "1 2000 3 4000").coords_utm = [((1 : ℚ), (2000 : ℚ)), (3, 4000)]
    ∧ (parse_coordinates projNone fwdZero (mkGeo [((0 : ℚ), (0 : ℚ))])
        "1 2000 3 4000").coords_geo.length
      ≠ (parse_coordinates projNone fwdZero (mkGeo [((0 : ℚ), (0 : ℚ))])
        "1 2000 3 4000").coords_utm.length := by
  refine ⟨?_, ?_, ?_⟩ <;>
  · simp +decide [parse_coordinates, parse_number_pairs, extractNumbers, scanNums, scanNumsAux,
      matchNumAt, matchFrac, matchExp, takeDigits, parseTok, digitsToNat, List.filterMap,
      chunksExact2, compute_geo_coords, collectResults, projNone, mkGeo]
    all_goals norm_num

/-!
Lemmas about the first-index search of the zoom-level computation.
-/

theorem findFirstIdx_some_spec (p : ℚ → Bool) :
    ∀ (l : List ℚ) (i : Nat), findFirstIdx p l = some i →
      i < l.length ∧ p (l.getD i 0) = true ∧ ∀ j, j < i → p (l.getD j 0) = false
  | [], i => by simp [findFirstIdx]
  | x :: xs, i => by
    intro h
    by_cases hp : p x
    · rw [findFirstIdx, if_pos hp] at h
      cases h
      refine ⟨Nat.succ_pos _, by simpa using hp, ?_⟩
      intro j hj
      omega
    · rw [findFirstIdx, if_neg hp] at h
      rcases Option.map_eq_some'.mp h with ⟨i2, hi2, rfl⟩
      obtain ⟨hlen, hget, hprev⟩ := findFirstIdx_some_spec p xs i2 hi2
      refine ⟨by simpa using Nat.succ_lt_succ hlen, by simpa using hget, ?_⟩
      intro j hj
      cases j with
      | zero => simpa using hp
      | succ j2 => simpa using hprev j2 (by omega)

theorem findFirstIdx_none_spec (p : ℚ → Bool) :
    ∀ l : List ℚ, findFirstIdx p l = none → ∀ x, x ∈ l → p x = false
  | [], _ => by simp
  | x :: xs, h => by
    by_cases hp : p x
    · rw [findFirstIdx, if_pos hp] at h
      simp at h
    · rw [findFirstIdx, if_neg hp] at h
      intro y hy
      rcases List.mem_cons.mp hy with rfl | hy2
      · simpa using hp
      · exact findFirstIdx_none_spec p xs (by simpa using h) y hy2

theorem findFirstIdx_isSome_of_mem (p : ℚ → Bool) (l : List ℚ) (x : ℚ)
    (hx : x ∈ l) (hp : p x = true) : ∃ i, findFirstIdx p l = some i := by
  rcases hf : findFirstIdx p l with _ | i
  · exact absurd (findFirstIdx_none_spec p l hf x hx) (by simp [hp])
  · exact ⟨i, rfl⟩

theorem findFirstIdx_mono (p q : ℚ → Bool) :
    ∀ (l : List ℚ) (i : Nat), (∀ x, x ∈ l → p x = true → q x = true) →
      findFirstIdx p l = some i → ∃ j, j ≤ i ∧ findFirstIdx q l = some j
  | [], i => by simp [findFirstIdx]
  | x :: xs, i => by
    intro hpq h
    by_cases hq : q x
    · exact ⟨0, Nat.zero_le _, by rw [findFirstIdx, if_pos hq]⟩
    · have hp : p x = false := by
        rcases hb : p x with _ | _
        · rfl
        · exact absurd (hpq x (by simp) hb) (by simp [hq])
      rw [findFirstIdx, if_neg (by simp [hp])] at h
      rcases Option.map_eq_some'.mp h with ⟨i2, hi2, rfl⟩
      obtain ⟨j2, hj2, hfq⟩ := findFirstIdx_mono p q xs i2
        (fun y hy => hpq y (List.mem_cons_of_mem _ hy)) hi2
      exact ⟨j2 + 1, by omega, by rw [findFirstIdx, if_neg hq, hfq]; rfl⟩

theorem getD_mem_of_lt {α : Type} :
    ∀ (l : List α) (j : Nat) (d : α), j < l.length → l.getD j d ∈ l
  | [], j, d => by simp
  | x :: xs, 0, d => by simp [List.getD]
  | x :: xs, j + 1, d => by
    intro h
    rw [List.getD_cons_succ]
    exact List.mem_cons_of_mem _ (getD_mem_of_lt xs j d (by simpa using h))

/-- Claim C2, amended: for a geographic set of two or more points the
zoom level is the smallest index of the descending 21-entry tile-width
table whose entry is strictly exceeded by the padded range (the code
searches for range minus width strictly positive), and when the range
exceeds no entry at all the zoom level defaults to index 0. -/
theorem zoom_level_first_exceeded (s : CoordinatesSuite)
    (hlen : 2 ≤ s.coords_geo.length) : ZoomCharacterization s := by
  have hne : ¬ s.coords_geo.length = 1 := by omega
  have hz : calculate_zoom_level s
      = (((findFirstIdx (fun tw => decide (0 < paddedRange s.coords_geo - tw))
          TILE_WIDTHS).getD 0 : ℕ) : ℚ) := by
    unfold calculate_zoom_level
    rw [if_neg hne]
  rcases hf : findFirstIdx (fun tw => decide (0 < paddedRange s.coords_geo - tw))
      TILE_WIDTHS with _ | i
  · right
    rw [hf] at hz
    refine ⟨by simpa using hz, ?_⟩
    intro j hj
    have hmem : TILE_WIDTHS.getD j 0 ∈ TILE_WIDTHS := getD_mem_of_lt _ j 0 hj
    have hfalse := findFirstIdx_none_spec _ _ hf _ hmem
    have h2 : ¬ (0 < paddedRange s.coords_geo - TILE_WIDTHS.getD j 0) := by
      simpa using hfalse
    linarith [not_lt.mp h2]
  · left
    rw [hf] at hz
    obtain ⟨hlt, hget, hprev⟩ := findFirstIdx_some_spec _ _ _ hf
    refine ⟨i, hf, by simpa using hz, hlt, ?_, ?_⟩
    · have h3 : (0 : ℚ) < paddedRange s.coords_geo - TILE_WIDTHS.getD i 0 := by
        simpa using hget
      linarith
    · intro j hj
      have h4 : ¬ (0 < paddedRange s.coords_geo - TILE_WIDTHS.getD j 0) := by
        simpa using hprev j hj
      linarith [not_lt.mp h4]

theorem zoom_level_first_exceeded_witness :
    2 ≤ (mkGeo [((0 : ℚ), (0 : ℚ)), (100, 0)]).coords_geo.length
    ∧ ZoomCharacterization (mkGeo [((0 : ℚ), (0 : ℚ)), (100, 0)]) :=
  ⟨by simp [mkGeo], zoom_level_first_exceeded _ (by simp [mkGeo])⟩

/-- Claim C2 counterexample: for the two-point set with padded range
130 the code produces zoom level 2 (the first index with 130 above the
tile width, table entry 90), while the claimed rule, the smallest index
with range strictly below the tile width, picks index 0 because 130 is
already below 360. -/
theorem zoom_level_spec_mismatch :
    calculate_zoom_level (mkGeo [((0 : ℚ), (0 : ℚ)), (100, 0)]) = 2
    ∧ zoom_level_spec (paddedRange (mkGeo [((0 : ℚ), (0 : ℚ)), (100, 0)]).coords_geo) = 0
    ∧ ((2 : ℚ) ≠ ((0 : ℕ) : ℚ)) := by
  refine ⟨?_, ?_, by norm_num⟩
  · simp +decide [calculate_zoom_level, mkGeo, paddedRange, boundsFold, F32_MAX, TILE_WIDTHS,
      findFirstIdx]
    all_goals norm_num
  · simp +decide [zoom_level_spec, mkGeo, paddedRange, boundsFold, F32_MAX, TILE_WIDTHS,
      findFirstIdx]
    all_goals norm_num

/-- Claim C6, amended: zoom antitonicity holds for sets of two or more
points provided the smaller padded range still exceeds the smallest
table entry 0.00025 = 1/4000; without that proviso a tiny range falls
off the table and defaults to zoom 0, the most zoomed-out level, which
breaks monotonicity. -/
theorem zoom_antitone (s1 s2 : CoordinatesSuite)
    (h1 : 2 ≤ s1.coords_geo.length) (h2 : 2 ≤ s2.coords_geo.length)
    (hsmall : 1 / 4000 < paddedRange s1.coords_geo)
    (hlt : paddedRange s1.coords_geo < paddedRange s2.coords_geo) :
    calculate_zoom_level s2 ≤ calculate_zoom_level s1 := by
  have hne1 : ¬ s1.coords_geo.length = 1 := by omega
  have hne2 : ¬ s2.coords_geo.length = 1 := by omega
  have hmem : (0.00025 : ℚ) ∈ TILE_WIDTHS := by simp [TILE_WIDTHS]
  obtain ⟨i, hi⟩ := findFirstIdx_isSome_of_mem
    (fun tw => decide (0 < paddedRange s1.coords_geo - tw)) TILE_WIDTHS 0.00025 hmem
    (by
      simp only [decide_eq_true_eq]
      linarith [show (0.00025 : ℚ) = 1 / 4000 from by norm_num])
  obtain ⟨j, hj, hjf⟩ := findFirstIdx_mono
    (fun tw => decide (0 < paddedRange s1.coords_geo - tw))
    (fun tw => decide (0 < paddedRange s2.coords_geo - tw)) TILE_WIDTHS i
    (fun x _ hpx => by
      simp only [decide_eq_true_eq] at hpx ⊢
      linarith) hi
  unfold calculate_zoom_level
  rw [if_neg hne1, if_neg hne2, hi, hjf]
  simp only [Option.getD_some]
  exact_mod_cast hj

theorem zoom_antitone_witness :
    calculate_zoom_level (mkGeo [((0 : ℚ), (0 : ℚ)), (100, 0)])
      ≤ calculate_zoom_level (mkGeo [((0 : ℚ), (0 : ℚ)), (1, 0)]) := by
  have hr1 : paddedRange (mkGeo [((0 : ℚ), (0 : ℚ)), (1, 0)]).coords_geo = 13 / 10 := by
    simp +decide [paddedRange, boundsFold, F32_MAX, mkGeo]
    all_goals norm_num
  have hr2 : paddedRange (mkGeo [((0 : ℚ), (0 : ℚ)), (100, 0)]).coords_geo = 130 := by
    simp +decide [paddedRange, boundsFold, F32_MAX, mkGeo]
    all_goals norm_num
  apply zoom_antitone
  · simp [mkGeo]
  · simp [mkGeo]
  · rw [hr1]
    norm_num
  · rw [hr1, hr2]
    norm_num

/-- Claim C6 counterexample: a degenerate two-point set with padded
range 0 gets zoom level 0 while a spread-out set with padded range 130
gets zoom level 2, so the smaller range yields the strictly smaller
zoom level, contradicting the claimed monotonicity. -/
theorem zoom_monotonicity_counterexample :
    paddedRange (mkGeo [((0 : ℚ), (0 : ℚ)), (0, 0)]).coords_geo
      < paddedRange (mkGeo [((0 : ℚ), (0 : ℚ)), (100, 0)]).coords_geo
    ∧ calculate_zoom_level (mkGeo [((0 : ℚ), (0 : ℚ)), (0, 0)])
      < calculate_zoom_level (mkGeo [((0 : ℚ), (0 : ℚ)), (100, 0)]) := by
  constructor
  · simp +decide [paddedRange, boundsFold, F32_MAX, mkGeo]
    all_goals norm_num
  · simp +decide [calculate_zoom_level, mkGeo, paddedRange, boundsFold, F32_MAX, TILE_WIDTHS,
      findFirstIdx]
    all_goals norm_num

theorem foldl_add_eq_sum : ∀ (l : List ℚ) (a : ℚ), l.foldl (· + ·) a = a + l.sum
  | [], a => by simp
  | x :: xs, a => by
    simp only [List.foldl_cons, List.sum_cons, foldl_add_eq_sum xs (a + x)]
    ring

/-- Claim C8, amended: for a non-empty geographic set the viewport is
centered at the unweighted arithmetic mean of the longitudes and
latitudes and the zoom is recomputed; for an empty geographic set the
function returns early and the whole session state, including the map
center, is left unchanged (the default-location fallback branch of the
source is dead code). -/
theorem move_map_centroid (s : CoordinatesSuite) :
    (s.coords_geo = [] → move_map_to_points s = s)
    ∧ (s.coords_geo ≠ [] →
        (move_map_to_points s).map_center = some
          ((s.coords_geo.map Prod.fst).sum / (s.coords_geo.length : ℚ),
           (s.coords_geo.map Prod.snd).sum / (s.coords_geo.length : ℚ))
        ∧ (move_map_to_points s).map_zoom = calculate_zoom_level s) := by
  constructor
  · intro he
    unfold move_map_to_points
    rw [if_pos he]
  · intro hne
    have hpos : (0 : ℚ) < (s.coords_geo.length : ℚ) := by
      have := List.length_pos.mpr hne
      exact_mod_cast this
    unfold move_map_to_points
    rw [if_neg hne]
    simp only [if_pos hpos, foldl_add_eq_sum, zero_add]
    constructor <;> trivial

theorem move_map_centroid_witness :
    move_map_to_points initState = initState
    ∧ (move_map_to_points (mkGeo [((1 : ℚ), (3 : ℚ)), (3, 5)])).map_center
      = some ((2 : ℚ), (4 : ℚ)) := by
  constructor
  · exact (move_map_centroid initState).1 rfl
  · rw [((move_map_centroid (mkGeo [((1 : ℚ), (3 : ℚ)), (3, 5)])).2 (by simp [mkGeo])).1]
    simp [mkGeo]
    norm_num

/-- Claim C8 counterexample: the claim says an empty geographic set
falls back to centering at the fixed default location, but the code
returns early without touching the map: a session with an empty set and
the map centered at (5, 5) keeps that center, which is not the default
location in either component order. -/
theorem move_map_empty_counterexample :
    (move_map_to_points
        { initState with map_center := some ((5 : ℚ), (5 : ℚ)) }).map_center
      = some ((5 : ℚ), (5 : ℚ))
    ∧ some ((5 : ℚ), (5 : ℚ)) ≠ some (DEFAULT_LON, DEFAULT_LAT)
    ∧ some ((5 : ℚ), (5 : ℚ)) ≠ some (DEFAULT_LAT, DEFAULT_LON) := by
  refine ⟨?_, ?_, ?_⟩
  · simp [move_map_to_points, initState, mkGeo]
  · simp [DEFAULT_LON, Prod.ext_iff]
    norm_num
  · simp [DEFAULT_LAT, Prod.ext_iff]
    intro h
    norm_num at h

theorem foldl_append_join (g : ℚ × ℚ → String) :
    ∀ (l : List (ℚ × ℚ)) (a : String),
      l.foldl (fun acc p => acc ++ g p) a = a ++ String.join (l.map g)
  | [], a => by
    simp [String.join]
  | x :: xs, a => by
    simp only [List.foldl_cons, List.map_cons, foldl_append_join g xs (a ++ g x)]
    rw [show String.join (g x :: xs.map g) = g x ++ String.join (xs.map g) from ?_]
    · rw [String.append_assoc]
    · apply String.ext
      simp

/-- Claim C9: delimited export writes exactly one header line naming
the two columns of the exported representation (Easting and Northing
for projected, Latitude and Longitude for geographic), followed by one
line per point holding the two rendered fields separated by a single
tab; exporting an empty set produces exactly the header line and no
data rows. -/
theorem export_csv_lines (render : ℚ → String) (coords : List (ℚ × ℚ)) :
    export_csv_utm render coords
      = "Easting\tNorthing\n" ++ String.join (coords.map (csvLineUtm render))
    ∧ export_csv_latlon render coords
      = "Latitude\tLongitude\n" ++ String.join (coords.map (csvLineGeo render))
    ∧ export_csv_utm render [] = "Easting\tNorthing\n"
    ∧ export_csv_latlon render [] = "Latitude\tLongitude\n" := by
  refine ⟨foldl_append_join _ coords _, foldl_append_join _ coords _, rfl, rfl⟩
